import Mathlib

/-!
Shallow embedding of the real-time chat subsystem of the Lang-Learn backend:
the in-memory connection registry (`ChatManager` in
`backend/services/chat_service.py`) and the WebSocket session protocol
(`websocket_endpoint` and `end_chat_session` in `backend/api/chat.py`).

The registry's `active_connections` Python dict
(`{session_id: {user_id: websocket}}`) is embedded as an insertion-ordered
association list, matching Python dict semantics: assignment to an existing
key updates in place keeping its position, assignment to a fresh key appends,
iteration follows that order, and keys are unique (uniqueness is carried as a
hypothesis where a theorem needs it, since the list representation can also
express non-dict states).
-/

namespace LangLearn

abbrev SessionId := String
abbrev UserId := String

/-- A live WebSocket handle, identified by object identity (Python compares
websockets with `==`, which is identity for these objects). -/
abbrev Channel := Nat

/-- One session's membership: `{user_id: websocket}` as an ordered assoc list. -/
abbrev Membership := List (UserId × Channel)

/-- `ChatManager.active_connections`: `{session_id: {user_id: websocket}}`. -/
abbrev Conns := List (SessionId × Membership)

/-- Python `session_id in dict` / `dict[session_id]`: first (unique) key match. -/
def lookupSession : Conns → SessionId → Option Membership
  | [], _ => none
  | (s, m) :: rest, sid => if s = sid then some m else lookupSession rest sid

/-- Python `dict[session_id] = m`: update the existing key in place, else append. -/
def setSession : Conns → SessionId → Membership → Conns
  | [], sid, m => [(sid, m)]
  | (s, m0) :: rest, sid, m =>
    if s = sid then (sid, m) :: rest else (s, m0) :: setSession rest sid m

/-- Python `del dict[session_id]` (keys are unique in a dict, so removing every
occurrence of the key coincides with removing the entry). -/
def delSession (cs : Conns) (sid : SessionId) : Conns :=
  cs.filter (fun e => ! (e.1 = sid : Bool))

/-- The local membership of a session (empty when the session has no entry). -/
def membership (cs : Conns) (sid : SessionId) : Membership :=
  (lookupSession cs sid).getD []

/-- Python `members[user_id] = websocket` on the per-session dict. -/
def setEntry : Membership → UserId → Channel → Membership
  | [], u, c => [(u, c)]
  | (u0, c0) :: rest, u, c =>
    if u0 = u then (u, c) :: rest else (u0, c0) :: setEntry rest u c

/-- The scan in `ChatManager.disconnect`: iterate `members.items()` and return
the first user id whose stored websocket is the given channel. -/
def findUser : Membership → Channel → Option UserId
  | [], _ => none
  | (u, c0) :: rest, c => if c0 = c then some u else findUser rest c

/-- Python `del members[user_id]`: drop the (first) entry with that key. -/
def removeUser : Membership → UserId → Membership
  | [], _ => []
  | (u0, c0) :: rest, u =>
    if u0 = u then rest else (u0, c0) :: removeUser rest u

/-- `ChatManager.connect`: accept the websocket and store it under
`active_connections[session_id][user_id]` (creating the session dict first when
absent). Redis mirroring is best-effort bookkeeping outside the local state. -/
def connect (cs : Conns) (sid : SessionId) (u : UserId) (c : Channel) : Conns :=
  setSession cs sid (setEntry (membership cs sid) u c)

/-- The per-session effect of `ChatManager.disconnect`: find the user holding
the websocket, delete that dict entry; no-op when the websocket is absent. -/
def memDisconnect (m : Membership) (c : Channel) : Membership :=
  match findUser m c with
  | none => m
  | some u => removeUser m u

/-- `ChatManager.disconnect(websocket, session_id)`: locate the user whose
stored websocket matches, delete the entry, and drop the whole session entry
when its dict becomes empty; no-op when session or websocket is absent. -/
def disconnect (cs : Conns) (c : Channel) (sid : SessionId) : Conns :=
  match lookupSession cs sid with
  | none => cs
  | some m =>
    match findUser m c with
    | none => cs
    | some u =>
      let m' := removeUser m u
      if m'.isEmpty then delSession cs sid else setSession cs sid m'

/-- The send loop of `ChatManager.send_message_to_session`: attempt
`websocket.send_text` on every entry in iteration order; sends that raise are
collected (in order) instead of aborting the scan. `fails c = true` models the
send to channel `c` raising. Returns (delivered entries, failed websockets). -/
def scanSends (fails : Channel → Bool) : Membership → Membership × List Channel
  | [] => ([], [])
  | (u, c) :: rest =>
    let p := scanSends fails rest
    if fails c then (p.1, c :: p.2) else ((u, c) :: p.1, p.2)

structure BroadcastResult where
  delivered : Membership
  failed : List Channel
  conns : Conns
  published : Bool
  deriving DecidableEq

/-- `ChatManager.send_message_to_session(session_id, message)`: serialize once,
send to every local channel of the session collecting failing websockets, then
`disconnect` each failing websocket, then publish on the Redis channel (the
publish is reached regardless of local failures; `published` records that the
code reaches it). -/
def send_message_to_session (cs : Conns) (fails : Channel → Bool)
    (sid : SessionId) : BroadcastResult :=
  match lookupSession cs sid with
  | none => { delivered := [], failed := [], conns := cs, published := true }
  | some m =>
    let p := scanSends fails m
    { delivered := p.1
      failed := p.2
      conns := p.2.foldl (fun acc c => disconnect acc c sid) cs
      published := true }

/-- `ChatManager.disconnect_session(session_id)`: close every websocket of the
session (close errors are swallowed), then delete the session entry. Returns
the list of channels that were closed together with the new state. -/
def disconnect_session (cs : Conns) (sid : SessionId) : List Channel × Conns :=
  match lookupSession cs sid with
  | none => ([], cs)
  | some m => (m.map Prod.snd, delSession cs sid)

/-! ## Data model (ContentStore rows used by the chat endpoint) -/

/-- `SenderType` in `backend/models/database_models.py` (values "user"/"ai"). -/
inductive Sender
  | user
  | ai
  deriving DecidableEq

def Sender.value : Sender → String
  | .user => "user"
  | .ai => "ai"

/-- A `ChatMessage` row as the endpoint creates it. Orm-level ids and the
wall-clock timestamp are opaque strings / omitted; the JSON-encoded analysis
columns are modelled as the lists they encode. -/
structure MessageRec where
  id : String
  session_id : String
  content : String
  sender : Sender
  corrections : Option (List String)
  vocabulary_used : Option (List String)
  deriving DecidableEq

/-- A `ChatSession` row (the fields the chat endpoint reads or writes). -/
structure SessionRec where
  id : String
  user_id : String
  learning_set_id : String
  end_time : Option Nat
  total_messages : Nat
  deriving DecidableEq

/-- A `User` row (the fields the WebSocket handshake reads). -/
structure UserRec where
  id : String
  username : String
  deriving DecidableEq

/-- The slice of the database the chat endpoint touches. Learning sets are
represented by their ids (the endpoint only checks existence and passes the
row to the tutor engine). -/
structure DB where
  users : List UserRec
  sessions : List SessionRec
  learning_sets : List String
  messages : List MessageRec
  deriving DecidableEq

/-- `db.query(ChatSession).filter(id == sid, user_id == uid).first()`. -/
def findOwnedSession (db : DB) (sid uid : String) : Option SessionRec :=
  db.sessions.find? (fun s => s.id = sid && s.user_id = uid)

/-- The `total_messages` counter of a session row, by id. -/
def totalOf (db : DB) (sid : String) : Option Nat :=
  (db.sessions.find? (fun s => s.id = sid)).map (fun s => s.total_messages)

/-! ## Wire envelopes -/

/-- The outbound envelope shapes `websocket_endpoint` broadcasts. A message
echo carries `type_field = none` when the JSON dict has no "type" key and
`some "complete_message"` when the success path tags the final AI echo. -/
structure MsgEnvelope where
  id : String
  content : String
  sender : String
  corrections : Option (List String)
  vocabulary_used : Option (List String)
  type_field : Option String
  deriving DecidableEq

inductive Envelope
  | message (m : MsgEnvelope)
  | typing_indicator (is_typing : Bool) (sender : String)
  | streaming_response (id : String) (chunk : String) (sender : String)
  deriving DecidableEq

/-- Does the envelope carry `"type": "complete_message"`? -/
def isCompleteMessage : Envelope → Bool
  | .message m => m.type_field = some "complete_message"
  | _ => false

/-- The chunk texts of the streaming-response envelopes, in delivery order. -/
def chunkTexts (evs : List Envelope) : List String :=
  evs.filterMap (fun e =>
    match e with
    | .streaming_response _ c _ => some c
    | _ => none)

/-- The response ids of the streaming-response envelopes, in delivery order. -/
def chunkIds (evs : List Envelope) : List String :=
  evs.filterMap (fun e =>
    match e with
    | .streaming_response i _ _ => some i
    | _ => none)

/-- The unanalyzed echo of a freshly persisted message (corrections and
vocabulary_used sent as null, no "type" key). -/
def echoEnvelope (m : MessageRec) : Envelope :=
  .message { id := m.id, content := m.content, sender := m.sender.value,
             corrections := none, vocabulary_used := none, type_field := none }

/-! ## Connect-time validation (`websocket_endpoint`, lines 39-81) -/

/-- The decoded JWT payload; `sub` models `payload.get("sub")`. -/
structure Payload where
  sub : Option String
  deriving DecidableEq

inductive ConnectOutcome
  | rejected
  | accepted (uid : String) (sess : SessionRec)
  deriving DecidableEq

/-- The validation chain of `websocket_endpoint` before the message loop:
`verify_token` result falsy, token payload without "sub", username not in the
users table, or no session row with this id owned by the user each close the
socket with WS_1008_POLICY_VIOLATION and return. The `payload` argument is the
result of `verify_token(token)`. Note: the session query filters only on id
and owner — the session's `end_time` is never consulted. -/
def connectValidate (db : DB) (payload : Option Payload) (sid : SessionId) :
    ConnectOutcome :=
  match payload with
  | none => .rejected
  | some p =>
    match p.sub with
    | none => .rejected
    | some username =>
      match db.users.find? (fun u => u.username = username) with
      | none => .rejected
      | some user =>
        match findOwnedSession db sid user.id with
        | none => .rejected
        | some sess => .accepted user.id sess

structure ConnectResult where
  closeCode : Option Nat
  conns : Conns
  registered : Bool
  deriving DecidableEq

/-- The handshake: on any validation failure close with 1008 and leave the
registry untouched; on success call `chat_manager.connect(ws, sid, user.id)`. -/
def wsConnect (cs : Conns) (db : DB) (payload : Option Payload)
    (sid : SessionId) (ch : Channel) : ConnectResult :=
  match connectValidate db payload sid with
  | .rejected => { closeCode := some 1008, conns := cs, registered := false }
  | .accepted uid _ => { closeCode := none, conns := connect cs sid uid ch,
                         registered := true }

/-! ## One turn of the message loop (`websocket_endpoint`, lines 110-266) -/

/-- The fallback text substituted when AI response generation raises. -/
def apologyText : String :=
  "I\x27m having trouble responding right now. Could you try asking again?"

/-- The analysis result `ai_tutor_service.analyze_message` returns. -/
structure AnalysisResult where
  corrections : List String
  vocabulary_used : List String
  deriving DecidableEq

/-- The collaborator outcomes and generated ids consumed by one turn on a
well-formed content frame. `analysis = none` models `analyze_message` raising.
`streamChunks` are the fragments `stream_response` yields before it either
finishes (`streamRaises = false`) or raises (`streamRaises = true`). -/
structure TurnInput where
  content : String
  userMsgId : String
  aiMsgId : String
  fallbackMsgId : String
  analysis : Option AnalysisResult
  streamChunks : List String
  streamRaises : Bool
  deriving DecidableEq

structure TurnResult where
  events : List Envelope
  db : DB
  closeCode : Option Nat
  deriving DecidableEq

/-- `session.total_messages += 2; db.commit()` — the ORM object loaded at
connect time is incremented and its value committed to the row. -/
def bumpCounter (db : DB) (sess : SessionRec) : DB :=
  { db with sessions := db.sessions.map (fun s =>
      if s.id = sess.id then { s with total_messages := sess.total_messages + 2 }
      else s) }

/-- In-place analysis update of the persisted user message
(`user_message.corrections = ...; db.commit()`). -/
def updateAnalysis (db : DB) (mid : String) (ar : AnalysisResult) : DB :=
  { db with messages := db.messages.map (fun m =>
      if m.id = mid then { m with corrections := some ar.corrections,
                                  vocabulary_used := some ar.vocabulary_used }
      else m) }

/-- One iteration of the `while True` loop on a frame that decoded, was not a
ping, and contains "content" (`websocket_endpoint` lines 110-266):
persist the USER message and echo it unanalyzed; close 1011 if the session's
learning set is gone; best-effort analysis (re-echo analyzed on success, echo
unanalyzed again on failure); typing-on; relay stream chunks under one
generated id while accumulating; on normal completion typing-off, persist the
accumulated text as the AI message and echo it tagged complete_message; if the
stream raised, instead persist the fixed apology as the AI message and echo it
WITHOUT any "type" tag; finally bump the session counter by two. -/
def processTurn (db : DB) (sess : SessionRec) (inp : TurnInput) : TurnResult :=
  let userMsg : MessageRec :=
    { id := inp.userMsgId, session_id := sess.id, content := inp.content,
      sender := .user, corrections := none, vocabulary_used := none }
  let db1 : DB := { db with messages := db.messages ++ [userMsg] }
  let ev1 : List Envelope := [echoEnvelope userMsg]
  if ¬ db.learning_sets.contains sess.learning_set_id then
    { events := ev1, db := db1, closeCode := some 1011 }
  else
    let anres : List Envelope × DB :=
      match inp.analysis with
      | some ar =>
        ([Envelope.message
            { id := userMsg.id, content := userMsg.content,
              sender := userMsg.sender.value,
              corrections := some ar.corrections,
              vocabulary_used := some ar.vocabulary_used,
              type_field := none }],
         updateAnalysis db1 userMsg.id ar)
      | none => ([echoEnvelope userMsg], db1)
    let evTypingOn : Envelope := .typing_indicator true "ai"
    let chunkEvs : List Envelope :=
      inp.streamChunks.map (fun c => .streaming_response inp.aiMsgId c "ai")
    if inp.streamRaises then
      let aiMsg : MessageRec :=
        { id := inp.fallbackMsgId, session_id := sess.id,
          content := apologyText, sender := .ai,
          corrections := none, vocabulary_used := none }
      let db3 : DB := { anres.2 with messages := anres.2.messages ++ [aiMsg] }
      { events := ev1 ++ anres.1 ++ [evTypingOn] ++ chunkEvs
                  ++ [echoEnvelope aiMsg]
        db := bumpCounter db3 sess
        closeCode := none }
    else
      let aiMsg : MessageRec :=
        { id := inp.aiMsgId, session_id := sess.id,
          content := String.join inp.streamChunks, sender := .ai,
          corrections := none, vocabulary_used := none }
      let db3 : DB := { anres.2 with messages := anres.2.messages ++ [aiMsg] }
      { events := ev1 ++ anres.1 ++ [evTypingOn] ++ chunkEvs
                  ++ [Envelope.typing_indicator false "ai"]
                  ++ [Envelope.message
                        { id := aiMsg.id, content := aiMsg.content,
                          sender := aiMsg.sender.value, corrections := none,
                          vocabulary_used := none,
                          type_field := some "complete_message" }]
        db := bumpCounter db3 sess
        closeCode := none }

/-! ## Loop exit paths (`websocket_endpoint`, lines 133-140 and 268-279) -/

/-- How the message loop of one connection can terminate with its channel
closed. -/
inductive ExitPath
  | clientDisconnect
  | missingLearningSet
  | uncaughtException
  deriving DecidableEq

/-- The registry effect of each loop exit, transcribed from the handlers:
`except WebSocketDisconnect` calls `chat_manager.disconnect(ws, session_id)`;
the missing-learning-set branch does `websocket.close(1011); return` with no
unregister; the outer `except Exception` closes with 1011 and also never
unregisters. -/
def loopExit (cs : Conns) (sid : SessionId) (ch : Channel) : ExitPath → Conns
  | .clientDisconnect => disconnect cs ch sid
  | .missingLearningSet => cs
  | .uncaughtException => cs

/-! ## Session termination (`end_chat_session`, lines 394-424) -/

inductive EndOutcome
  | notFound
  | alreadyEnded
  | ended (db : DB) (closed : List Channel) (conns : Conns)
  deriving DecidableEq

/-- `session.end_time = datetime.utcnow(); db.commit()` on the matching row. -/
def setEndTime (db : DB) (sid : String) (now : Nat) : DB :=
  { db with sessions := db.sessions.map (fun s =>
      if s.id = sid then { s with end_time := some now } else s) }

/-- `PUT /sessions/{session_id}/end`: 404 when no session row matches (id,
owner); 400 when `end_time` is already set; otherwise set `end_time = now`,
commit, and `chat_manager.disconnect_session(session_id)`. -/
def end_chat_session (db : DB) (cs : Conns) (sid uid : String) (now : Nat) :
    EndOutcome :=
  match findOwnedSession db sid uid with
  | none => .notFound
  | some sess =>
    if sess.end_time.isSome then .alreadyEnded
    else
      let p := disconnect_session cs sid
      .ended (setEndTime db sid now) p.1 p.2

/-! ## Concrete fixtures for counterexamples and witnesses -/

def aliceUser : UserRec := { id := "u1", username := "alice" }

/-- A not-yet-ended session owned by alice over learning set "ls1". -/
def liveSession : SessionRec :=
  { id := "s1", user_id := "u1", learning_set_id := "ls1",
    end_time := none, total_messages := 0 }

/-- The same session after `end_chat_session` at time 5. -/
def endedSession : SessionRec := { liveSession with end_time := some 5 }

def liveDB : DB :=
  { users := [aliceUser], sessions := [liveSession],
    learning_sets := ["ls1"], messages := [] }

def endedDB : DB := { liveDB with sessions := [endedSession] }

/-- A turn whose stream completes normally (analysis raising). -/
def plainTurn : TurnInput :=
  { content := "hi", userMsgId := "m1", aiMsgId := "m2", fallbackMsgId := "m3",
    analysis := none, streamChunks := ["ok"], streamRaises := false }

/-- A turn whose stream raises after two delivered chunks. -/
def raisingTurn : TurnInput :=
  { content := "hi", userMsgId := "m1", aiMsgId := "m2", fallbackMsgId := "m3",
    analysis := some { corrections := [], vocabulary_used := [] },
    streamChunks := ["par", "tial"], streamRaises := true }

/-! ## Derived notions used by the statements -/

def keys (m : Membership) : List UserId := m.map Prod.fst

/-- Reference operation: erase the first entry whose stored channel is `c`. -/
def removeFirstWs : Membership → Channel → Membership
  | [], _ => []
  | (u, c0) :: rest, c => if c0 = c then rest else (u, c0) :: removeFirstWs rest c

/-- Python `members.get(user_id)` on a per-session dict. -/
def lookupUser (m : Membership) (u : UserId) : Option Channel :=
  (m.find? (fun e => e.1 = u)).map Prod.snd

/-- One registry operation, as issued by the endpoint:
`register` is `ChatManager.connect` (without the websocket accept),
`unregister` is `ChatManager.disconnect`. -/
inductive Op
  | register (sid : SessionId) (u : UserId) (c : Channel)
  | unregister (c : Channel) (sid : SessionId)
  deriving DecidableEq

def applyOp (cs : Conns) : Op → Conns
  | .register sid u c => connect cs sid u c
  | .unregister c sid => disconnect cs c sid

/-- Run a sequence of registry operations from the empty registry. -/
def runOps (ops : List Op) : Conns := ops.foldl applyOp []

/-- Specification-side definition, following the spec's words for the
refinement claim ("local membership after the sequence equals the net effect
of the operations in order"): the net effect of one operation on one
session's membership in isolation — operations on other sessions are ignored,
a register binds the user to the channel, an unregister removes the binding
holding the channel (no-op when absent). -/
def netStep (sid : SessionId) (m : Membership) : Op → Membership
  | .register sid' u c => if sid' = sid then setEntry m u c else m
  | .unregister c sid' => if sid' = sid then memDisconnect m c else m

/-- Specification-side definition: the per-session net effect of an operation
sequence, starting from no members. -/
def netEffect (ops : List Op) (sid : SessionId) : Membership :=
  ops.foldl (netStep sid) []

/-! ## Registry lemmas -/

theorem lookupSession_setSession_self (cs : Conns) (sid : SessionId)
    (m : Membership) : lookupSession (setSession cs sid m) sid = some m := by
  induction cs with
  | nil => simp [setSession, lookupSession]
  | cons e rest ih =>
    by_cases h : e.1 = sid
    · simp [setSession, lookupSession, h]
    · simpa [setSession, lookupSession, h] using ih

theorem lookupSession_setSession_ne (cs : Conns) (sid sid' : SessionId)
    (m : Membership) (h : sid' ≠ sid) :
    lookupSession (setSession cs sid m) sid' = lookupSession cs sid' := by
  have h2 : ¬ sid = sid' := fun h' => h h'.symm
  induction cs with
  | nil => simp [setSession, lookupSession, h2]
  | cons e rest ih =>
    by_cases he : e.1 = sid
    · simp [setSession, lookupSession, he, h2]
    · by_cases he' : e.1 = sid'
      · simp [setSession, lookupSession, he, he', h]
      · simpa [setSession, lookupSession, he, he'] using ih

theorem lookupSession_delSession_self (cs : Conns) (sid : SessionId) :
    lookupSession (delSession cs sid) sid = none := by
  induction cs with
  | nil => simp [delSession, lookupSession]
  | cons e rest ih =>
    by_cases h : e.1 = sid
    · simpa [delSession, List.filter, h] using ih
    · simpa [delSession, List.filter, lookupSession, h] using ih

theorem lookupSession_delSession_ne (cs : Conns) (sid sid' : SessionId)
    (h : sid' ≠ sid) :
    lookupSession (delSession cs sid) sid' = lookupSession cs sid' := by
  have h2 : ¬ sid = sid' := fun h' => h h'.symm
  induction cs with
  | nil => simp [delSession, lookupSession]
  | cons e rest ih =>
    by_cases he : e.1 = sid
    · simpa [delSession, List.filter, he, lookupSession, h2] using ih
    · by_cases he' : e.1 = sid'
      · simp [delSession, List.filter, lookupSession, he, he', h]
      · simpa [delSession, List.filter, lookupSession, he, he'] using ih

theorem membership_connect_self (cs : Conns) (sid : SessionId) (u : UserId)
    (c : Channel) :
    membership (connect cs sid u c) sid = setEntry (membership cs sid) u c := by
  simp [connect, membership, lookupSession_setSession_self]

theorem membership_connect_ne (cs : Conns) (sid sid' : SessionId) (u : UserId)
    (c : Channel) (h : sid' ≠ sid) :
    membership (connect cs sid u c) sid' = membership cs sid' := by
  simp [connect, membership, lookupSession_setSession_ne _ _ _ _ h]

theorem findUser_eq_none_iff (m : Membership) (c : Channel) :
    findUser m c = none ↔ ∀ e ∈ m, e.2 ≠ c := by
  induction m with
  | nil => simp [findUser]
  | cons e rest ih =>
    by_cases h : e.2 = c
    · constructor
      · intro hn; exact absurd hn (by simp [findUser, h])
      · intro hall; exact absurd h (hall e (by simp))
    · constructor
      · intro hn e' he'
        rcases List.mem_cons.1 he' with rfl | hmem
        · exact h
        · have : findUser rest c = none := by
            simpa [findUser, h] using hn
          exact (ih.1 this) e' hmem
      · intro hall
        have : findUser rest c = none :=
          ih.2 (fun e' he' => hall e' (List.mem_cons_of_mem _ he'))
        simpa [findUser, h] using this

theorem removeUser_eq_nil_iff (m : Membership) (u : UserId) :
    (removeUser m u).isEmpty = true ↔ removeUser m u = [] := by
  cases h : removeUser m u <;> simp [List.isEmpty]

theorem membership_disconnect_self (cs : Conns) (c : Channel)
    (sid : SessionId) :
    membership (disconnect cs c sid) sid = memDisconnect (membership cs sid) c := by
  unfold disconnect
  cases hls : lookupSession cs sid with
  | none => simp [membership, hls, memDisconnect, findUser]
  | some m =>
    cases hfu : findUser m c with
    | none => simp [membership, hls, memDisconnect, hfu]
    | some u =>
      by_cases hemp : (removeUser m u).isEmpty
      · have hnil : removeUser m u = [] := (removeUser_eq_nil_iff m u).1 hemp
        simp [membership, hls, memDisconnect, hfu, hemp, hnil,
          lookupSession_delSession_self]
      · simp [membership, hls, memDisconnect, hfu, hemp,
          lookupSession_setSession_self]

theorem membership_disconnect_ne (cs : Conns) (c : Channel)
    (sid sid' : SessionId) (h : sid' ≠ sid) :
    membership (disconnect cs c sid) sid' = membership cs sid' := by
  cases hls : lookupSession cs sid with
  | none => simp [disconnect, hls]
  | some m =>
    cases hfu : findUser m c with
    | none => simp [disconnect, hls, hfu]
    | some u =>
      by_cases hemp : (removeUser m u).isEmpty
      · simp [disconnect, hls, hfu, hemp, membership,
          lookupSession_delSession_ne _ _ _ h]
      · simp [disconnect, hls, hfu, hemp, membership,
          lookupSession_setSession_ne _ _ _ _ h]

theorem disconnect_noop (cs : Conns) (c : Channel) (sid : SessionId)
    (h : ∀ e ∈ membership cs sid, e.2 ≠ c) : disconnect cs c sid = cs := by
  unfold disconnect
  cases hls : lookupSession cs sid with
  | none => rfl
  | some m =>
    have hm : membership cs sid = m := by simp [membership, hls]
    have : findUser m c = none := (findUser_eq_none_iff m c).2 (hm ▸ h)
    simp [this]

theorem scanSends_fst (fails : Channel → Bool) (m : Membership) :
    (scanSends fails m).1 = m.filter (fun e => ! fails e.2) := by
  induction m with
  | nil => rfl
  | cons e rest ih =>
    cases hc : fails e.2 <;> simp [scanSends, List.filter, hc, ih]

theorem scanSends_snd (fails : Channel → Bool) (m : Membership) :
    (scanSends fails m).2 = (m.filter (fun e => fails e.2)).map Prod.snd := by
  induction m with
  | nil => rfl
  | cons e rest ih =>
    cases hc : fails e.2 <;> simp [scanSends, List.filter, hc, ih]

theorem membership_foldl_disconnect (F : List Channel) (cs : Conns)
    (sid : SessionId) :
    membership (F.foldl (fun acc c => disconnect acc c sid) cs) sid
      = F.foldl memDisconnect (membership cs sid) := by
  induction F generalizing cs with
  | nil => rfl
  | cons c F ih =>
    simp only [List.foldl_cons]
    rw [ih, membership_disconnect_self]

theorem findUser_mem_keys (m : Membership) (c : Channel) (u : UserId)
    (h : findUser m c = some u) : u ∈ keys m := by
  induction m with
  | nil => simp [findUser] at h
  | cons e rest ih =>
    by_cases hc : e.2 = c
    · simp [findUser, hc] at h
      simp [keys, h]
    · simp [findUser, hc] at h
      exact List.mem_cons_of_mem _ (ih h)

theorem removeUser_sublist (m : Membership) (u : UserId) :
    (removeUser m u).Sublist m := by
  induction m with
  | nil => simp [removeUser]
  | cons e rest ih =>
    by_cases hu : e.1 = u
    · simp [removeUser, hu]
    · simpa [removeUser, hu] using ih.cons₂ e

theorem keys_memDisconnect_subset (m : Membership) (c : Channel) (x : UserId)
    (h : x ∈ keys (memDisconnect m c)) : x ∈ keys m := by
  unfold memDisconnect at h
  cases hfu : findUser m c with
  | none => rw [hfu] at h; exact h
  | some u =>
    rw [hfu] at h
    exact ((removeUser_sublist m u).map Prod.fst).mem h

theorem keys_memDisconnect_nodup (m : Membership) (c : Channel)
    (h : (keys m).Nodup) : (keys (memDisconnect m c)).Nodup := by
  unfold memDisconnect
  cases hfu : findUser m c with
  | none => exact h
  | some u => exact ((removeUser_sublist m u).map Prod.fst).nodup h

theorem memDisconnect_cons_of_ne (m : Membership) (u0 : UserId)
    (c0 c : Channel) (hc : c0 ≠ c) (hk : u0 ∉ keys m) :
    memDisconnect ((u0, c0) :: m) c = (u0, c0) :: memDisconnect m c := by
  cases hfu : findUser m c with
  | none => simp [memDisconnect, findUser, hc, hfu]
  | some u =>
    have hu : ¬ u0 = u := by
      intro h; exact hk (by rw [h]; exact findUser_mem_keys m c u hfu)
    simp [memDisconnect, findUser, hc, hfu, removeUser, hu]

theorem foldl_memDisconnect_cons (F : List Channel) (m : Membership)
    (u0 : UserId) (c0 : Channel) (hk : u0 ∉ keys m)
    (hF : ∀ c ∈ F, c ≠ c0) :
    F.foldl memDisconnect ((u0, c0) :: m) = (u0, c0) :: F.foldl memDisconnect m := by
  induction F generalizing m with
  | nil => rfl
  | cons c F ih =>
    simp only [List.foldl_cons]
    rw [memDisconnect_cons_of_ne m u0 c0 c
      (fun h => hF c (by simp) h.symm) hk]
    exact ih (memDisconnect m c)
      (fun h => hk (keys_memDisconnect_subset m c u0 h))
      (fun c' hc' => hF c' (List.mem_cons_of_mem _ hc'))

theorem mem_snd_filter_fails (fails : Channel → Bool) (m : Membership)
    (c : Channel) (h : c ∈ (m.filter (fun e => fails e.2)).map Prod.snd) :
    fails c = true := by
  rcases List.mem_map.1 h with ⟨e, he, rfl⟩
  exact (List.mem_filter.1 he).2

theorem foldl_memDisconnect_failed (fails : Channel → Bool) (m : Membership)
    (h : (keys m).Nodup) :
    ((m.filter (fun e => fails e.2)).map Prod.snd).foldl memDisconnect m
      = m.filter (fun e => ! fails e.2) := by
  induction m with
  | nil => rfl
  | cons e rest ih =>
    obtain ⟨u, c⟩ := e
    rw [keys, List.map_cons, List.nodup_cons] at h
    obtain ⟨hk, hnd⟩ := h
    cases hc : fails c with
    | true =>
      have hstep : memDisconnect ((u, c) :: rest) c = rest := by
        simp [memDisconnect, findUser, removeUser]
      simpa [List.filter, hc, hstep] using ih hnd
    | false =>
      have hcons := foldl_memDisconnect_cons
        ((rest.filter (fun e => fails e.2)).map Prod.snd) rest u c hk
        (fun c' hc' => by
          intro hcc
          have := mem_snd_filter_fails fails rest c' hc'
          rw [hcc] at this
          simp [hc] at this)
      simpa [List.filter, hc, hcons] using ih hnd

theorem memDisconnect_eq_removeFirstWs (m : Membership) (c : Channel)
    (h : (keys m).Nodup) : memDisconnect m c = removeFirstWs m c := by
  induction m with
  | nil => rfl
  | cons e rest ih =>
    obtain ⟨u0, c0⟩ := e
    rw [keys, List.map_cons, List.nodup_cons] at h
    obtain ⟨hk, hnd⟩ := h
    by_cases hc : c0 = c
    · subst hc
      simp [memDisconnect, findUser, removeUser, removeFirstWs]
    · rw [memDisconnect_cons_of_ne rest u0 c0 c hc hk, removeFirstWs]
      simp [hc, ih hnd]

theorem removeFirstWs_no_ws (m : Membership) (c : Channel)
    (h : m.countP (fun e => (e.2 = c : Bool)) ≤ 1) :
    ∀ e ∈ removeFirstWs m c, e.2 ≠ c := by
  induction m with
  | nil => simp [removeFirstWs]
  | cons e0 rest ih =>
    obtain ⟨u0, c0⟩ := e0
    rw [List.countP_cons] at h
    by_cases hc : c0 = c
    · subst hc
      intro e he
      rw [removeFirstWs, if_pos rfl] at he
      simp at h
      exact h e.1 e.2 he
    · have hr : rest.countP (fun e => (e.2 = c : Bool)) ≤ 1 :=
        le_trans (Nat.le_add_right _ _) h
      intro e he
      rw [removeFirstWs, if_neg hc] at he
      rcases List.mem_cons.1 he with rfl | hmem
      · exact hc
      · exact ih hr e hmem

theorem lookupUser_setEntry_self (m : Membership) (u : UserId) (c : Channel) :
    lookupUser (setEntry m u c) u = some c := by
  induction m with
  | nil => simp [setEntry, lookupUser, List.find?]
  | cons e rest ih =>
    by_cases hu : e.1 = u
    · simp [setEntry, lookupUser, List.find?, hu]
    · simpa [setEntry, lookupUser, List.find?, hu] using ih

theorem mem_setEntry (m : Membership) (u : UserId) (c : Channel)
    (e : UserId × Channel) (hnd : (keys m).Nodup) (he : e ∈ setEntry m u c) :
    e = (u, c) ∨ (e ∈ m ∧ e.1 ≠ u) := by
  induction m with
  | nil => simp [setEntry] at he; exact Or.inl he
  | cons e0 rest ih =>
    obtain ⟨u0, c0⟩ := e0
    rw [keys, List.map_cons, List.nodup_cons] at hnd
    obtain ⟨hk, hnd⟩ := hnd
    by_cases hu : u0 = u
    · subst hu
      rw [setEntry, if_pos rfl] at he
      rcases List.mem_cons.1 he with rfl | hmem
      · exact Or.inl rfl
      · refine Or.inr ⟨List.mem_cons_of_mem _ hmem, fun hq => hk ?_⟩
        rw [← hq]
        exact List.mem_map.2 ⟨e, hmem, rfl⟩
    · rw [setEntry, if_neg hu] at he
      rcases List.mem_cons.1 he with rfl | hmem
      · exact Or.inr ⟨List.mem_cons_self _ _, hu⟩
      · rcases ih hnd hmem with h | ⟨hm, hne⟩
        · exact Or.inl h
        · exact Or.inr ⟨List.mem_cons_of_mem _ hm, hne⟩

theorem delivered_subset (cs : Conns) (fails : Channel → Bool)
    (sid : SessionId) (e : UserId × Channel)
    (he : e ∈ (send_message_to_session cs fails sid).delivered) :
    e ∈ membership cs sid := by
  cases hls : lookupSession cs sid with
  | none => simp [send_message_to_session, hls] at he
  | some m =>
    rw [send_message_to_session] at he
    rw [hls] at he
    simp only [scanSends_fst] at he
    have := List.mem_of_mem_filter he
    simpa [membership, hls] using this

theorem membership_applyOp (cs : Conns) (op : Op) (sid : SessionId) :
    membership (applyOp cs op) sid = netStep sid (membership cs sid) op := by
  cases op with
  | register sid' u c =>
    by_cases h : sid' = sid
    · subst h; simp [applyOp, netStep, membership_connect_self]
    · simp [applyOp, netStep, h, membership_connect_ne cs sid' sid u c (Ne.symm h)]
  | unregister c sid' =>
    by_cases h : sid' = sid
    · subst h; simp [applyOp, netStep, membership_disconnect_self]
    · simp [applyOp, netStep, h, membership_disconnect_ne cs c sid' sid (Ne.symm h)]

theorem foldl_applyOp (ops : List Op) (cs : Conns) (sid : SessionId) :
    membership (ops.foldl applyOp cs) sid
      = ops.foldl (netStep sid) (membership cs sid) := by
  induction ops generalizing cs with
  | nil => rfl
  | cons op ops ih =>
    simp only [List.foldl_cons]
    rw [ih, membership_applyOp]

theorem find_bump (l : List SessionRec) (sess : SessionRec)
    (h : l.find? (fun s => (s.id = sess.id : Bool)) = some sess) :
    (l.map (fun s => if s.id = sess.id
        then { s with total_messages := sess.total_messages + 2 } else s)).find?
        (fun s => (s.id = sess.id : Bool))
      = some { sess with total_messages := sess.total_messages + 2 } := by
  induction l with
  | nil => simp [List.find?] at h
  | cons s0 rest ih =>
    by_cases hid : s0.id = sess.id
    · have h0 : s0 = sess := by simpa [List.find?_cons_of_pos, hid] using h
      subst h0
      simp [List.map_cons, hid, List.find?_cons_of_pos]
    · have h' : rest.find? (fun s => (s.id = sess.id : Bool)) = some sess := by
        simpa [List.find?_cons_of_neg, hid] using h
      simpa [List.map_cons, hid, List.find?_cons_of_neg] using ih h'

theorem processTurn_sessions (db : DB) (sess : SessionRec) (inp : TurnInput)
    (hls : db.learning_sets.contains sess.learning_set_id = true) :
    (processTurn db sess inp).db.sessions
      = db.sessions.map (fun s => if s.id = sess.id
          then { s with total_messages := sess.total_messages + 2 } else s) := by
  have hm : sess.learning_set_id ∈ db.learning_sets := by simpa using hls
  cases ha : inp.analysis <;> cases hr : inp.streamRaises <;>
    simp [processTurn, hm, ha, hr, bumpCounter, updateAnalysis]

theorem processTurn_totalOf (db : DB) (sess : SessionRec) (inp : TurnInput)
    (hls : db.learning_sets.contains sess.learning_set_id = true)
    (hfind : db.sessions.find? (fun s => (s.id = sess.id : Bool)) = some sess) :
    totalOf (processTurn db sess inp).db sess.id
      = some (sess.total_messages + 2) := by
  rw [totalOf, processTurn_sessions db sess inp hls, find_bump db.sessions sess hfind]
  rfl

theorem processTurn_messages_length (db : DB) (sess : SessionRec)
    (inp : TurnInput)
    (hls : db.learning_sets.contains sess.learning_set_id = true) :
    (processTurn db sess inp).db.messages.length = db.messages.length + 2 := by
  have hm : sess.learning_set_id ∈ db.learning_sets := by simpa using hls
  cases ha : inp.analysis <;> cases hr : inp.streamRaises <;>
    simp [processTurn, hm, ha, hr, bumpCounter, updateAnalysis]

theorem chunkTexts_cons_message (m : MsgEnvelope) (l : List Envelope) :
    chunkTexts (.message m :: l) = chunkTexts l := by
  simp [chunkTexts]

theorem chunkTexts_cons_typing (b : Bool) (s : String) (l : List Envelope) :
    chunkTexts (.typing_indicator b s :: l) = chunkTexts l := by
  simp [chunkTexts]

theorem chunkTexts_cons_stream (i c s : String) (l : List Envelope) :
    chunkTexts (.streaming_response i c s :: l) = c :: chunkTexts l := by
  simp [chunkTexts]

theorem chunkTexts_append (l1 l2 : List Envelope) :
    chunkTexts (l1 ++ l2) = chunkTexts l1 ++ chunkTexts l2 := by
  simp [chunkTexts]

theorem chunkTexts_nil : chunkTexts [] = [] := rfl

theorem chunkTexts_map_stream (i s : String) (l : List String) :
    chunkTexts (l.map (fun c => Envelope.streaming_response i c s)) = l := by
  induction l with
  | nil => rfl
  | cons c rest ih => rw [List.map_cons, chunkTexts_cons_stream, ih]

theorem chunkIds_cons_message (m : MsgEnvelope) (l : List Envelope) :
    chunkIds (.message m :: l) = chunkIds l := by
  simp [chunkIds]

theorem chunkIds_cons_typing (b : Bool) (s : String) (l : List Envelope) :
    chunkIds (.typing_indicator b s :: l) = chunkIds l := by
  simp [chunkIds]

theorem chunkIds_cons_stream (i c s : String) (l : List Envelope) :
    chunkIds (.streaming_response i c s :: l) = i :: chunkIds l := by
  simp [chunkIds]

theorem chunkIds_append (l1 l2 : List Envelope) :
    chunkIds (l1 ++ l2) = chunkIds l1 ++ chunkIds l2 := by
  simp [chunkIds]

theorem chunkIds_nil : chunkIds [] = [] := rfl

theorem chunkIds_map_stream (i s : String) (l : List String) :
    chunkIds (l.map (fun c => Envelope.streaming_response i c s))
      = l.map (fun _ => i) := by
  induction l with
  | nil => rfl
  | cons c rest ih => rw [List.map_cons, chunkIds_cons_stream, ih, List.map_cons]

theorem getLast?_append_pair {α : Type} (l : List α) (a b : α) :
    (l ++ [a, b]).getLast? = some b := by
  rw [show l ++ [a, b] = (l ++ [a]) ++ [b] by simp, List.getLast?_concat]

theorem getLast?_cons_concat {α : Type} (a : α) (l : List α) (b : α) :
    (a :: (l ++ [b])).getLast? = some b := by
  rw [show a :: (l ++ [b]) = (a :: l) ++ [b] by simp, List.getLast?_concat]

theorem getLast?_cons_append_pair {α : Type} (a : α) (l : List α) (b c : α) :
    (a :: (l ++ [b, c])).getLast? = some c := by
  rw [show a :: (l ++ [b, c]) = ((a :: l) ++ [b]) ++ [c] by simp,
    List.getLast?_concat]

/-! ## Claim theorems -/

/-- C5: `broadcast(sessionId, envelope)` (here `send_message_to_session`)
delivers to every channel registered for the session at call time except those
whose send throws; a throwing send prevents neither delivery to the remaining
channels (the delivered entries are exactly the non-throwing ones, in order)
nor the shared-bus publish; and afterwards the session's local membership is
exactly the non-throwing entries, so every channel whose send threw is absent.
The hypothesis is the dict representation invariant (user keys unique). -/
theorem c5_broadcast_fanout (cs : Conns) (fails : Channel → Bool)
    (sid : SessionId) (h : (keys (membership cs sid)).Nodup) :
    (send_message_to_session cs fails sid).delivered
        = (membership cs sid).filter (fun e => ! fails e.2)
    ∧ (send_message_to_session cs fails sid).published = true
    ∧ membership (send_message_to_session cs fails sid).conns sid
        = (membership cs sid).filter (fun e => ! fails e.2)
    ∧ ∀ e ∈ membership (send_message_to_session cs fails sid).conns sid,
        fails e.2 = false := by
  cases hls : lookupSession cs sid with
  | none =>
    refine ⟨by simp [send_message_to_session, hls, membership],
      by simp [send_message_to_session, hls],
      by simp [send_message_to_session, hls, membership], ?_⟩
    intro e he
    simp [send_message_to_session, hls, membership] at he
  | some m =>
    have hm : membership cs sid = m := by simp [membership, hls]
    have hdel : (send_message_to_session cs fails sid).delivered
        = m.filter (fun e => ! fails e.2) := by
      simp [send_message_to_session, hls, scanSends_fst]
    have hcfold : (send_message_to_session cs fails sid).conns
        = ((scanSends fails m).2).foldl (fun acc c => disconnect acc c sid) cs := by
      simp [send_message_to_session, hls]
    have hconns : membership (send_message_to_session cs fails sid).conns sid
        = m.filter (fun e => ! fails e.2) := by
      rw [hcfold, membership_foldl_disconnect, hm, scanSends_snd]
      exact foldl_memDisconnect_failed fails m (hm ▸ h)
    refine ⟨by rw [hdel, hm], by simp [send_message_to_session, hls],
      by rw [hconns, hm], ?_⟩
    intro e he
    rw [hconns] at he
    simpa using (List.mem_filter.1 he).2

/-- Witness for C5 at a concrete three-channel session where the send to
channel 2 throws. -/
theorem c5_witness :
    (send_message_to_session [("s1", [("u1", 1), ("u2", 2), ("u3", 3)])]
        (fun c => c == 2) "s1").delivered
      = (membership [("s1", [("u1", 1), ("u2", 2), ("u3", 3)])] "s1").filter
          (fun e => ! (e.2 == 2))
    ∧ (send_message_to_session [("s1", [("u1", 1), ("u2", 2), ("u3", 3)])]
        (fun c => c == 2) "s1").published = true
    ∧ membership (send_message_to_session [("s1", [("u1", 1), ("u2", 2), ("u3", 3)])]
        (fun c => c == 2) "s1").conns "s1"
      = (membership [("s1", [("u1", 1), ("u2", 2), ("u3", 3)])] "s1").filter
          (fun e => ! (e.2 == 2))
    ∧ ∀ e ∈ membership (send_message_to_session
        [("s1", [("u1", 1), ("u2", 2), ("u3", 3)])] (fun c => c == 2) "s1").conns "s1",
        (fun c => c == 2) e.2 = false :=
  c5_broadcast_fanout [("s1", [("u1", 1), ("u2", 2), ("u3", 3)])]
    (fun c => c == 2) "s1" (by decide)

/-- C8: the registry refines the per-session net-effect semantics — after any
finite sequence of register/unregister operations from the empty registry, a
session's local membership equals the net effect of the operations in order
(no lost or phantom entries); and unregistering a channel that is not (or no
longer) registered for the session leaves the registry state unchanged. -/
theorem c8_registry_net_effect :
    (∀ (ops : List Op) (sid : SessionId),
        membership (runOps ops) sid = netEffect ops sid)
    ∧ (∀ (cs : Conns) (c : Channel) (sid : SessionId),
        (∀ e ∈ membership cs sid, e.2 ≠ c) → disconnect cs c sid = cs) := by
  constructor
  · intro ops sid
    have h := foldl_applyOp ops [] sid
    simpa [runOps, netEffect, membership, lookupSession] using h
  · exact disconnect_noop

/-- Witness for C8: a concrete operation sequence (register two users,
replace one, unregister one, touch another session), and a concrete no-op
unregister of an absent channel. -/
theorem c8_witness :
    membership (runOps [Op.register "s1" "u1" 1, Op.register "s1" "u2" 2,
        Op.register "s2" "u9" 9, Op.unregister 1 "s1",
        Op.register "s1" "u1" 4]) "s1"
      = netEffect [Op.register "s1" "u1" 1, Op.register "s1" "u2" 2,
          Op.register "s2" "u9" 9, Op.unregister 1 "s1",
          Op.register "s1" "u1" 4] "s1"
    ∧ disconnect [("s1", [("u1", 1)])] 9 "s1" = [("s1", [("u1", 1)])] :=
  ⟨c8_registry_net_effect.1 [Op.register "s1" "u1" 1, Op.register "s1" "u2" 2,
      Op.register "s2" "u9" 9, Op.unregister 1 "s1", Op.register "s1" "u1" 4] "s1",
   c8_registry_net_effect.2 [("s1", [("u1", 1)])] 9 "s1" (by decide)⟩

/-- C7: every connect attempt failing validation — falsy token verification,
payload without a username, unknown user, or no session with this id owned by
the user — closes with the policy-violation code 1008 and leaves the registry
exactly unchanged, with no registration performed. -/
theorem c7_connect_rejection_no_side_effects (cs : Conns) (db : DB)
    (payload : Option Payload) (sid : SessionId) (ch : Channel)
    (h : payload = none
      ∨ (∃ p, payload = some p ∧ p.sub = none)
      ∨ (∃ p username, payload = some p ∧ p.sub = some username
          ∧ db.users.find? (fun u => (u.username = username : Bool)) = none)
      ∨ (∃ p username user, payload = some p ∧ p.sub = some username
          ∧ db.users.find? (fun u => (u.username = username : Bool)) = some user
          ∧ findOwnedSession db sid user.id = none)) :
    wsConnect cs db payload sid ch
      = { closeCode := some 1008, conns := cs, registered := false } := by
  have hrej : connectValidate db payload sid = ConnectOutcome.rejected := by
    rcases h with rfl | ⟨p, rfl, hsub⟩ | ⟨p, username, rfl, hsub, husr⟩
      | ⟨p, username, user, rfl, hsub, husr, hsess⟩
    · rfl
    · simp [connectValidate, hsub]
    · simp [connectValidate, hsub, husr]
    · simp [connectValidate, hsub, husr, hsess]
  simp [wsConnect, hrej]

/-- Witness for C7: a token that fails verification against a populated
registry leaves it untouched. -/
theorem c7_witness :
    wsConnect [("s1", [("u1", 1)])] liveDB none "s1" 9
      = { closeCode := some 1008, conns := [("s1", [("u1", 1)])],
          registered := false } :=
  c7_connect_rejection_no_side_effects [("s1", [("u1", 1)])] liveDB none "s1" 9
    (Or.inl rfl)

/-- C9: `end_chat_session` fails with NotFound when no session row matches
(id, owner); fails with AlreadyEnded when the end time is already set; and
otherwise sets the end time, returns as closed exactly the channels locally
registered to the session at call time, and leaves the session with no
registered channels. -/
theorem c9_end_session_semantics (db : DB) (cs : Conns) (sid uid : String)
    (now : Nat) :
    (findOwnedSession db sid uid = none →
        end_chat_session db cs sid uid now = .notFound)
    ∧ (∀ sess, findOwnedSession db sid uid = some sess →
        sess.end_time.isSome = true →
        end_chat_session db cs sid uid now = .alreadyEnded)
    ∧ (∀ sess, findOwnedSession db sid uid = some sess →
        sess.end_time = none →
        end_chat_session db cs sid uid now
            = .ended (setEndTime db sid now)
                ((membership cs sid).map Prod.snd)
                ((disconnect_session cs sid).2)
          ∧ membership ((disconnect_session cs sid).2) sid = []
          ∧ ∀ s ∈ (setEndTime db sid now).sessions, s.id = sid →
              s.end_time = some now) := by
  refine ⟨?_, ?_, ?_⟩
  · intro hf
    simp [end_chat_session, hf]
  · intro sess hf hend
    simp [end_chat_session, hf, hend]
  · intro sess hf hend
    have hclosed : (disconnect_session cs sid).1
        = (membership cs sid).map Prod.snd := by
      cases hls : lookupSession cs sid with
      | none => simp [disconnect_session, hls, membership]
      | some m => simp [disconnect_session, hls, membership]
    have hmem : membership ((disconnect_session cs sid).2) sid = [] := by
      cases hls : lookupSession cs sid with
      | none => simp [disconnect_session, hls, membership]
      | some m =>
        simp [disconnect_session, hls, membership, lookupSession_delSession_self]
    refine ⟨?_, hmem, ?_⟩
    · rw [end_chat_session, hf]
      simp [hend, ← hclosed]
    · intro s hs hsid
      rw [setEndTime] at hs
      simp only [List.mem_map] at hs
      obtain ⟨s0, hs0, rfl⟩ := hs
      by_cases h0 : s0.id = sid
      · simp [h0]
      · simp [h0] at hsid ⊢

/-- Witness for C9: the three outcomes at concrete inputs — unknown session
id, an already-ended session, and a live session with one registered channel
that ends up closed and with empty membership. -/
theorem c9_witness :
    end_chat_session liveDB [] "nope" "u1" 5 = .notFound
    ∧ end_chat_session endedDB [] "s1" "u1" 9 = .alreadyEnded
    ∧ (end_chat_session liveDB [("s1", [("u1", 7)])] "s1" "u1" 5
          = .ended (setEndTime liveDB "s1" 5)
              ((membership [("s1", [("u1", 7)])] "s1").map Prod.snd)
              ((disconnect_session [("s1", [("u1", 7)])] "s1").2)
        ∧ membership ((disconnect_session [("s1", [("u1", 7)])] "s1").2) "s1" = []
        ∧ ∀ s ∈ (setEndTime liveDB "s1" 5).sessions, s.id = "s1" →
            s.end_time = some 5) :=
  ⟨(c9_end_session_semantics liveDB [] "nope" "u1" 5).1 (by decide),
   (c9_end_session_semantics endedDB [] "s1" "u1" 9).2.1 endedSession
     (by decide) (by decide),
   (c9_end_session_semantics liveDB [("s1", [("u1", 7)])] "s1" "u1" 5).2.2
     liveSession (by decide) (by decide)⟩

/-- C10: the local map holds at most one channel per (session, user):
registering a second channel for an already-registered (session, user)
replaces the stored channel — afterwards the user's entry holds the new
channel, the replaced channel is no longer a member (given it was stored only
under this user, as object identity of live sockets guarantees), broadcasts
deliver to no entry holding it, and an unregister naming the replaced channel
leaves the registry unchanged. -/
theorem c10_connect_replaces_channel (cs : Conns) (sid : SessionId)
    (u : UserId) (c1 c2 : Channel) (fails : Channel → Bool)
    (hnd : (keys (membership cs sid)).Nodup)
    (_hbound : lookupUser (membership cs sid) u = some c1)
    (honly : ∀ e ∈ membership cs sid, e.2 = c1 → e.1 = u)
    (hne : c1 ≠ c2) :
    lookupUser (membership (connect cs sid u c2) sid) u = some c2
    ∧ (∀ e ∈ membership (connect cs sid u c2) sid, e.2 ≠ c1)
    ∧ (∀ e ∈ (send_message_to_session (connect cs sid u c2) fails sid).delivered,
        e.2 ≠ c1)
    ∧ disconnect (connect cs sid u c2) c1 sid = connect cs sid u c2 := by
  have habs : ∀ e ∈ membership (connect cs sid u c2) sid, e.2 ≠ c1 := by
    intro e he
    rw [membership_connect_self] at he
    rcases mem_setEntry (membership cs sid) u c2 e hnd he with rfl | ⟨hm, hneu⟩
    · exact Ne.symm hne
    · intro hq
      exact hneu (honly e hm hq)
  refine ⟨?_, habs, ?_, ?_⟩
  · rw [membership_connect_self]
    exact lookupUser_setEntry_self _ u c2
  · intro e he
    exact habs e (delivered_subset _ fails sid e he)
  · exact disconnect_noop _ c1 sid habs

/-- Witness for C10: user "u1" re-registers with channel 2 replacing
channel 1 while "u2" keeps channel 5. -/
theorem c10_witness :
    lookupUser (membership (connect [("s1", [("u1", 1), ("u2", 5)])] "s1" "u1" 2)
        "s1") "u1" = some 2
    ∧ (∀ e ∈ membership (connect [("s1", [("u1", 1), ("u2", 5)])] "s1" "u1" 2)
        "s1", e.2 ≠ 1)
    ∧ (∀ e ∈ (send_message_to_session
        (connect [("s1", [("u1", 1), ("u2", 5)])] "s1" "u1" 2)
        (fun _ => false) "s1").delivered, e.2 ≠ 1)
    ∧ disconnect (connect [("s1", [("u1", 1), ("u2", 5)])] "s1" "u1" 2) 1 "s1"
        = connect [("s1", [("u1", 1), ("u2", 5)])] "s1" "u1" 2 :=
  c10_connect_replaces_channel [("s1", [("u1", 1), ("u2", 5)])] "s1" "u1" 1 2
    (fun _ => false) (by decide) (by decide) (by decide) (by decide)

/-- C6 counterexample: the claim says every loop exit that closes the channel
removes its registry entry, but the missing-learning-set close (1011) and the
outer exception handler close (1011) perform no unregister: at a concrete
registered state both leave the closed channel's entry in place. -/
theorem c6_counterexample :
    loopExit [("s1", [("u1", 7)])] "s1" 7 ExitPath.missingLearningSet
        = [("s1", [("u1", 7)])]
    ∧ loopExit [("s1", [("u1", 7)])] "s1" 7 ExitPath.uncaughtException
        = [("s1", [("u1", 7)])]
    ∧ ("u1", 7) ∈ membership (loopExit [("s1", [("u1", 7)])] "s1" 7
        ExitPath.missingLearningSet) "s1" :=
  ⟨rfl, rfl, by decide⟩

/-- C6 amended: only the client-disconnect exit unregisters — after it the
channel is absent from the session's local membership (given the dict key
invariant and the channel stored at most once) — while the
missing-learning-set close and the uncaught-exception close leave the
registry exactly unchanged, so their closed channel stays registered. -/
theorem c6_unregister_only_on_client_disconnect (cs : Conns) (sid : SessionId)
    (ch : Channel)
    (hnd : (keys (membership cs sid)).Nodup)
    (honce : (membership cs sid).countP (fun e => (e.2 = ch : Bool)) ≤ 1) :
    (∀ e ∈ membership (loopExit cs sid ch ExitPath.clientDisconnect) sid,
        e.2 ≠ ch)
    ∧ loopExit cs sid ch ExitPath.missingLearningSet = cs
    ∧ loopExit cs sid ch ExitPath.uncaughtException = cs := by
  refine ⟨?_, rfl, rfl⟩
  intro e he
  have hle : membership (loopExit cs sid ch ExitPath.clientDisconnect) sid
      = removeFirstWs (membership cs sid) ch := by
    have h1 : loopExit cs sid ch ExitPath.clientDisconnect
        = disconnect cs ch sid := rfl
    rw [h1, membership_disconnect_self, memDisconnect_eq_removeFirstWs _ _ hnd]
  rw [hle] at he
  exact removeFirstWs_no_ws _ ch honce e he

/-- Witness for C6 (amended) at a concrete two-channel session. -/
theorem c6_witness :
    (∀ e ∈ membership (loopExit [("s1", [("u1", 7), ("u2", 8)])] "s1" 7
        ExitPath.clientDisconnect) "s1", e.2 ≠ 7)
    ∧ loopExit [("s1", [("u1", 7), ("u2", 8)])] "s1" 7
        ExitPath.missingLearningSet = [("s1", [("u1", 7), ("u2", 8)])]
    ∧ loopExit [("s1", [("u1", 7), ("u2", 8)])] "s1" 7
        ExitPath.uncaughtException = [("s1", [("u1", 7), ("u2", 8)])] :=
  c6_unregister_only_on_client_disconnect [("s1", [("u1", 7), ("u2", 8)])] "s1" 7
    (by decide) (by decide)

/-- C3: on a completed turn over a well-formed content frame the session's
message counter increases by exactly 2 (and exactly two messages are
persisted), for every analysis outcome and both the normal-stream and
fallback-apology paths (the turn input quantifies over all of them). -/
theorem c3_counter_increment_two (db : DB) (sess : SessionRec) (inp : TurnInput)
    (hls : db.learning_sets.contains sess.learning_set_id = true)
    (hfind : db.sessions.find? (fun s => (s.id = sess.id : Bool)) = some sess) :
    totalOf db sess.id = some sess.total_messages
    ∧ totalOf (processTurn db sess inp).db sess.id
        = some (sess.total_messages + 2)
    ∧ (processTurn db sess inp).db.messages.length = db.messages.length + 2 := by
  refine ⟨?_, processTurn_totalOf db sess inp hls hfind,
    processTurn_messages_length db sess inp hls⟩
  rw [totalOf, hfind]
  rfl

/-- Witness for C3 at a concrete turn whose analysis raises. -/
theorem c3_witness :
    totalOf liveDB liveSession.id = some liveSession.total_messages
    ∧ totalOf (processTurn liveDB liveSession plainTurn).db liveSession.id
        = some (liveSession.total_messages + 2)
    ∧ (processTurn liveDB liveSession plainTurn).db.messages.length
        = liveDB.messages.length + 2 :=
  c3_counter_increment_two liveDB liveSession plainTurn (by decide) (by decide)

/-- C4: when the stream completes without raising, the chunk fields of the
streaming-response envelopes, concatenated in delivery order, equal exactly
the content of the AI message persisted at the end of the turn; all those
envelopes (and the persisted message) carry the one generated response id. -/
theorem c4_stream_roundtrip (db : DB) (sess : SessionRec) (inp : TurnInput)
    (hls : db.learning_sets.contains sess.learning_set_id = true)
    (hok : inp.streamRaises = false) :
    chunkTexts (processTurn db sess inp).events = inp.streamChunks
    ∧ (∀ i ∈ chunkIds (processTurn db sess inp).events, i = inp.aiMsgId)
    ∧ ((processTurn db sess inp).db.messages.getLast?).map
        (fun m => (m.id, m.content, m.sender))
      = some (inp.aiMsgId,
          String.join (chunkTexts (processTurn db sess inp).events),
          Sender.ai) := by
  have hm : sess.learning_set_id ∈ db.learning_sets := by simpa using hls
  have hev : chunkTexts (processTurn db sess inp).events = inp.streamChunks := by
    cases ha : inp.analysis <;>
      simp [processTurn, hm, ha, hok, echoEnvelope, chunkTexts_cons_message,
        chunkTexts_cons_typing, chunkTexts_append, chunkTexts_map_stream,
        chunkTexts_nil, chunkTexts_cons_stream]
  refine ⟨hev, ?_, ?_⟩
  · intro i hi
    cases ha : inp.analysis <;>
      simp [processTurn, hm, ha, hok, echoEnvelope, chunkIds_cons_message,
        chunkIds_cons_typing, chunkIds_append, chunkIds_map_stream,
        chunkIds_nil, chunkIds_cons_stream] at hi <;>
      exact hi.2
  · rw [hev]
    cases ha : inp.analysis <;>
      simp [processTurn, hm, ha, hok, echoEnvelope, bumpCounter,
        getLast?_append_pair]

/-- Witness for C4 at a concrete single-chunk turn. -/
theorem c4_witness :
    chunkTexts (processTurn liveDB liveSession plainTurn).events
        = plainTurn.streamChunks
    ∧ (∀ i ∈ chunkIds (processTurn liveDB liveSession plainTurn).events,
        i = plainTurn.aiMsgId)
    ∧ (((processTurn liveDB liveSession plainTurn).db.messages.getLast?).map
        (fun m => (m.id, m.content, m.sender)))
      = some (plainTurn.aiMsgId,
          String.join (chunkTexts (processTurn liveDB liveSession plainTurn).events),
          Sender.ai) :=
  c4_stream_roundtrip liveDB liveSession plainTurn (by decide) (by decide)

/-- C2 counterexample: the claim says a turn whose stream raises still yields
a complete_message envelope with the apology text; at a concrete raising turn
(two chunks already delivered) NO broadcast envelope carries the
complete_message tag — the apology goes out as a plain message echo — so the
delivered chunks dangle without a terminating complete_message envelope. -/
theorem c2_counterexample :
    raisingTurn.streamRaises = true
    ∧ ((processTurn liveDB liveSession raisingTurn).events.any
        (fun e => match e with
          | Envelope.streaming_response _ _ _ => true
          | _ => false)) = true
    ∧ ((processTurn liveDB liveSession raisingTurn).events.all
        (fun e => ! isCompleteMessage e)) = true := by
  decide

/-- C2 amended: when the stream raises, the turn still ends with a broadcast
carrying the fixed apology text, but as a plain message echo with NO
complete_message type tag (and no envelope of the turn carries that tag);
the apology is persisted as the AI message. -/
theorem c2_fallback_no_complete_envelope (db : DB) (sess : SessionRec)
    (inp : TurnInput)
    (hls : db.learning_sets.contains sess.learning_set_id = true)
    (hraise : inp.streamRaises = true) :
    (processTurn db sess inp).events.getLast?
        = some (Envelope.message
            { id := inp.fallbackMsgId, content := apologyText, sender := "ai",
              corrections := none, vocabulary_used := none, type_field := none })
    ∧ (∀ e ∈ (processTurn db sess inp).events, isCompleteMessage e = false)
    ∧ ((processTurn db sess inp).db.messages.getLast?).map
        (fun m => (m.id, m.content, m.sender))
      = some (inp.fallbackMsgId, apologyText, Sender.ai) := by
  have hm : sess.learning_set_id ∈ db.learning_sets := by simpa using hls
  refine ⟨?_, ?_, ?_⟩
  · cases ha : inp.analysis <;>
      simp [processTurn, hm, ha, hraise, echoEnvelope, Sender.value,
        getLast?_cons_concat]
  · intro e he
    cases ha : inp.analysis with
    | none =>
      simp [processTurn, hm, ha, hraise, echoEnvelope] at he
      rcases he with rfl | rfl | ⟨c, hc, rfl⟩ | rfl <;>
        simp [isCompleteMessage]
    | some ar =>
      simp [processTurn, hm, ha, hraise, echoEnvelope] at he
      rcases he with rfl | rfl | rfl | ⟨c, hc, rfl⟩ | rfl <;>
        simp [isCompleteMessage]
  · cases ha : inp.analysis <;>
      simp [processTurn, hm, ha, hraise, echoEnvelope, Sender.value,
        bumpCounter, getLast?_append_pair]

/-- Witness for C2 (amended) at a concrete raising turn. -/
theorem c2_witness :
    (processTurn liveDB liveSession raisingTurn).events.getLast?
        = some (Envelope.message
            { id := raisingTurn.fallbackMsgId, content := apologyText,
              sender := "ai", corrections := none, vocabulary_used := none,
              type_field := none })
    ∧ (∀ e ∈ (processTurn liveDB liveSession raisingTurn).events,
        isCompleteMessage e = false)
    ∧ ((processTurn liveDB liveSession raisingTurn).db.messages.getLast?).map
        (fun m => (m.id, m.content, m.sender))
      = some (raisingTurn.fallbackMsgId, apologyText, Sender.ai) :=
  c2_fallback_no_complete_envelope liveDB liveSession raisingTurn
    (by decide) (by decide)

/-- C1 counterexample: the claim says that after `end_chat_session` succeeds
no operation may append messages or change the counter; but ending the
concrete live session, then connecting a NEW channel with alice's valid
token, is accepted (connect validation never checks end_time), and a content
turn on the ended session appends two messages and bumps the counter to 2. -/
theorem c1_counterexample :
    end_chat_session liveDB [] "s1" "u1" 5 = .ended endedDB [] []
    ∧ connectValidate endedDB (some { sub := some "alice" }) "s1"
        = .accepted "u1" endedSession
    ∧ endedSession.end_time = some 5
    ∧ totalOf endedDB "s1" = some 0
    ∧ totalOf (processTurn endedDB endedSession plainTurn).db "s1" = some 2
    ∧ (processTurn endedDB endedSession plainTurn).db.messages.length
        = endedDB.messages.length + 2 := by
  decide

/-- C1 amended: `end_chat_session` force-disconnects the live channels (see
C9), but neither connect-time validation nor the turn pipeline consults the
session's end time: any connect whose validation accepts — which it does for
an ended session too — registers the channel, and a subsequent content turn
still appends two messages and increments the counter by two. -/
theorem c1_ended_session_still_accepts_turns (cs : Conns) (db : DB)
    (payload : Option Payload) (sid : SessionId) (ch : Channel)
    (uid : String) (sess : SessionRec) (inp : TurnInput)
    (hacc : connectValidate db payload sid = .accepted uid sess)
    (_hended : sess.end_time.isSome = true)
    (hls : db.learning_sets.contains sess.learning_set_id = true)
    (hfind : db.sessions.find? (fun s => (s.id = sess.id : Bool)) = some sess) :
    (wsConnect cs db payload sid ch).registered = true
    ∧ (wsConnect cs db payload sid ch).closeCode = none
    ∧ membership (wsConnect cs db payload sid ch).conns sid
        = setEntry (membership cs sid) uid ch
    ∧ totalOf (processTurn db sess inp).db sess.id
        = some (sess.total_messages + 2)
    ∧ (processTurn db sess inp).db.messages.length = db.messages.length + 2 := by
  refine ⟨?_, ?_, ?_, processTurn_totalOf db sess inp hls hfind,
    processTurn_messages_length db sess inp hls⟩
  · simp [wsConnect, hacc]
  · simp [wsConnect, hacc]
  · simp [wsConnect, hacc, membership_connect_self]

/-- Witness for C1 (amended): a fresh channel connects to the concrete ended
session and completes a turn. -/
theorem c1_witness :
    (wsConnect [] endedDB (some { sub := some "alice" }) "s1" 3).registered = true
    ∧ (wsConnect [] endedDB (some { sub := some "alice" }) "s1" 3).closeCode = none
    ∧ membership (wsConnect [] endedDB (some { sub := some "alice" }) "s1" 3).conns
        "s1" = setEntry (membership [] "s1") "u1" 3
    ∧ totalOf (processTurn endedDB endedSession plainTurn).db endedSession.id
        = some (endedSession.total_messages + 2)
    ∧ (processTurn endedDB endedSession plainTurn).db.messages.length
        = endedDB.messages.length + 2 :=
  c1_ended_session_still_accepts_turns [] endedDB (some { sub := some "alice" })
    "s1" 3 "u1" endedSession plainTurn (by decide) (by decide) (by decide)
    (by decide)

end LangLearn
